import Mathlib

/-!
Shallow embedding of the x402 task board write endpoints
(secret-mars/x402-task-board, src/index.ts) over the D1 schema
(tables agents, tasks, bids, activity).

Modelling conventions:
* SQL rows become Lean structures; TEXT status columns stay `String`
  exactly as the code compares them ('open', 'assigned', ...).
* The agents table keyed by btc_address becomes a total function
  `String → AgentRow`; a row that was never inserted is the all-zero
  default row, matching the schema's DEFAULT 0 counters.  Claims only
  concern counter fields, which the upsert never touches.
* SQL `UPDATE ... WHERE c` becomes `List.map (fun t => if c t then f t else t)`
  and D1's `meta.changes` becomes `List.countP c`.
* JS truthiness of optional strings (`body.x || null`, `body.payment_tx ? _ : _`)
  is `orNull` / `truthy`; a missing or empty string is falsy.
* `created_at` / `updated_at` timestamps and the auth envelope
  (signature shape + timestamp freshness, lines 28-48 of index.ts) are
  outside the claims; handlers model the code from the point where
  `validateAuth` has succeeded, keeping the JS required-field checks.
* Read-only GET endpoints never write, so the transition system ranges
  over the six write operations.
-/

namespace X402

structure AgentRow where
  display_name : Option String
  stx_address : Option String
  reputation : Int
  tasks_posted : Int
  tasks_completed : Int
  total_earned_sats : Int
  total_spent_sats : Int
deriving Repr, DecidableEq

def AgentRow.init : AgentRow := ⟨none, none, 0, 0, 0, 0, 0⟩

structure Task where
  id : Nat
  poster : String
  title : String
  description : String
  bounty_sats : Int
  status : String
  tags : Option String
  deadline : Option String
  worker : Option String
  proof_url : Option String
  proof_description : Option String
  payment_tx : Option String
deriving Repr, DecidableEq

structure Bid where
  id : Nat
  task_id : Nat
  bidder : String
  amount_sats : Int
  message : Option String
  status : String
deriving Repr, DecidableEq

structure Activity where
  task_id : Nat
  actor : String
  action : String
  details : String
deriving Repr, DecidableEq

structure DB where
  agents : String → AgentRow
  tasks : List Task
  bids : List Bid
  activity : List Activity
  nextTaskId : Nat
  nextBidId : Nat

def initDB : DB := ⟨fun _ => AgentRow.init, [], [], [], 1, 1⟩

/-- JS `x || null` on an optional string field: empty string collapses to null. -/
def orNull (o : Option String) : Option String :=
  match o with
  | some s => if s = "" then none else some s
  | none => none

/-- JS truthiness of an optional string (`body.payment_tx ? _ : _`). -/
def truthy (o : Option String) : Bool :=
  match o with
  | some s => s != ""
  | none => false

/-- `ensureAgent` (index.ts lines 50-60): INSERT ... ON CONFLICT DO UPDATE with
COALESCE keeping the existing display_name / stx_address when the new one is null. -/
def ensureAgent (db : DB) (addr : String) (displayName stxAddress : Option String) : DB :=
  { db with agents := fun a =>
      if a = addr then
        let old := db.agents addr
        { old with
          display_name :=
            match orNull displayName with
            | some d => some d
            | none => old.display_name
          stx_address :=
            match orNull stxAddress with
            | some s => some s
            | none => old.stx_address }
      else db.agents a }

/-- `UPDATE agents SET ... WHERE btc_address = addr`. -/
def updateAgent (db : DB) (addr : String) (f : AgentRow → AgentRow) : DB :=
  { db with agents := fun a => if a = addr then f (db.agents a) else db.agents a }

/-- `UPDATE tasks SET ... WHERE c`. -/
def updateTasksWhere (db : DB) (c : Task → Bool) (f : Task → Task) : DB :=
  { db with tasks := db.tasks.map (fun t => if c t then f t else t) }

/-- `INSERT INTO activity (task_id, actor, action, details)`. -/
def appendActivity (db : DB) (taskId : Nat) (actor action details : String) : DB :=
  { db with activity := db.activity ++ [⟨taskId, actor, action, details⟩] }

/-- An error response: HTTP status code and the json error message. -/
structure ApiError where
  code : Nat
  msg : String
deriving Repr, DecidableEq

/-- The success response bodies of the six write endpoints. -/
inductive ApiOk where
  | created (task_id : Nat)
  | bidPlaced (bid_id : Nat)
  | accepted (worker : String)
  | submittedOk
  | verifiedResp (status : String)
  | cancelledOk
deriving Repr, DecidableEq

/-- POST /api/tasks (index.ts lines 73-110). -/
def createTask (db : DB) (poster title description : String) (bounty_sats : Int)
    (tags deadline posterName posterStx : Option String) : Except ApiError ApiOk × DB :=
  if poster = "" ∨ title = "" ∨ description = "" ∨ bounty_sats = 0 then
    (.error ⟨400, "Required: poster, title, description, bounty_sats"⟩, db)
  else if bounty_sats < 1 then
    (.error ⟨400, "bounty_sats must be positive"⟩, db)
  else
    let db1 := ensureAgent db poster posterName posterStx
    let tid := db1.nextTaskId
    let db2 := { db1 with
      tasks := db1.tasks ++ [⟨tid, poster, title, description, bounty_sats, "open",
        orNull tags, orNull deadline, none, none, none, none⟩],
      nextTaskId := tid + 1 }
    let db3 := updateAgent db2 poster (fun a =>
      { a with tasks_posted := a.tasks_posted + 1,
               total_spent_sats := a.total_spent_sats + bounty_sats })
    let db4 := appendActivity db3 tid poster "created"
      ("Bounty: " ++ toString bounty_sats ++ " sats")
    (.ok (.created tid), db4)

/-- POST /api/tasks/:id/bid (index.ts lines 178-205). -/
def placeBid (db : DB) (taskId : Nat) (bidder : String) (amount_sats : Int)
    (message bidderName bidderStx : Option String) : Except ApiError ApiOk × DB :=
  if bidder = "" ∨ amount_sats = 0 then
    (.error ⟨400, "Required: bidder, amount_sats"⟩, db)
  else
    match db.tasks.find? (fun t => t.id == taskId) with
    | none => (.error ⟨404, "Task not found"⟩, db)
    | some task =>
      if task.status ≠ "open" then (.error ⟨400, "Task is not open for bids"⟩, db)
      else if task.poster = bidder then (.error ⟨400, "Cannot bid on your own task"⟩, db)
      else
        let db1 := ensureAgent db bidder bidderName bidderStx
        let bidId := db1.nextBidId
        let db2 := { db1 with
          bids := db1.bids ++ [⟨bidId, taskId, bidder, amount_sats, orNull message, "pending"⟩],
          nextBidId := bidId + 1 }
        let db3 := appendActivity db2 taskId bidder "bid"
          (toString amount_sats ++ " sats: " ++ (match message with | some m => m | none => ""))
        (.ok (.bidPlaced bidId), db3)

/-- The WHERE clause of the conditional accept update
(`WHERE id = ? AND status = 'open' AND poster = ?`, index.ts line 222). -/
def acceptGuard (taskId : Nat) (poster : String) (t : Task) : Bool :=
  t.id == taskId && t.status == "open" && t.poster == poster

/-- POST /api/tasks/:id/accept (index.ts lines 208-239): conditional update first,
then the dependent cascade batch only when the update changed a row. -/
def acceptBid (db : DB) (taskId : Nat) (poster : String) (bidId : Nat) :
    Except ApiError ApiOk × DB :=
  if poster = "" ∨ bidId = 0 then
    (.error ⟨400, "Required: poster, bid_id"⟩, db)
  else
    match db.bids.find? (fun b => b.id == bidId && b.task_id == taskId) with
    | none => (.error ⟨404, "Bid not found"⟩, db)
    | some bid =>
      let changes := db.tasks.countP (acceptGuard taskId poster)
      let db1 := updateTasksWhere db (acceptGuard taskId poster) (fun t =>
        { t with status := "assigned", worker := some bid.bidder,
                 bounty_sats := bid.amount_sats })
      if changes = 0 then
        (.error ⟨409, "Task already accepted or not open, or not your task"⟩, db1)
      else
        let db2 := { db1 with bids := db1.bids.map (fun (b : Bid) =>
          if b.id == bidId then { b with status := "accepted" } else b) }
        let db3 := { db2 with bids := db2.bids.map (fun (b : Bid) =>
          if b.task_id == taskId && b.id != bidId && b.status == "pending"
          then { b with status := "rejected" } else b) }
        let db4 := appendActivity db3 taskId poster "accepted_bid"
          ("Assigned to " ++ bid.bidder ++ " for " ++ toString bid.amount_sats ++ " sats")
        (.ok (.accepted bid.bidder), db4)

/-- POST /api/tasks/:id/submit (index.ts lines 242-264). -/
def submitWork (db : DB) (taskId : Nat) (worker proof_url : String)
    (description : Option String) : Except ApiError ApiOk × DB :=
  if worker = "" ∨ proof_url = "" then
    (.error ⟨400, "Required: worker, proof_url"⟩, db)
  else
    match db.tasks.find? (fun t => t.id == taskId) with
    | none => (.error ⟨404, "Task not found"⟩, db)
    | some task =>
      if task.worker ≠ some worker then
        (.error ⟨403, "Only the assigned worker can submit"⟩, db)
      else if task.status ≠ "assigned" then
        (.error ⟨400, "Task is not in assigned state"⟩, db)
      else
        let db1 := updateTasksWhere db (fun t => t.id == taskId) (fun t =>
          { t with status := "submitted", proof_url := some proof_url,
                   proof_description := orNull description })
        let db2 := appendActivity db1 taskId worker "submitted" proof_url
        (.ok .submittedOk, db2)

/-- POST /api/tasks/:id/verify (index.ts lines 267-303).  Note line 302: the
response status field is computed from `approved` alone, not from the stored
status, so an approved verification always answers "verified". -/
def verifyWork (db : DB) (taskId : Nat) (poster : String) (approved : Bool)
    (payment_tx reason : Option String) : Except ApiError ApiOk × DB :=
  if poster = "" then
    (.error ⟨400, "Required: poster, approved (true/false)"⟩, db)
  else
    match db.tasks.find? (fun t => t.id == taskId) with
    | none => (.error ⟨404, "Task not found"⟩, db)
    | some task =>
      if task.poster ≠ poster then (.error ⟨403, "Only the poster can verify"⟩, db)
      else if task.status ≠ "submitted" then
        (.error ⟨400, "Task work not submitted yet"⟩, db)
      else
        let db1 :=
          if approved then
            let newStatus := if truthy payment_tx then "paid" else "verified"
            let dbA := updateTasksWhere db (fun t => t.id == taskId) (fun t =>
              { t with status := newStatus, payment_tx := orNull payment_tx })
            let dbB :=
              match task.worker with
              | some w => updateAgent dbA w (fun a =>
                  { a with tasks_completed := a.tasks_completed + 1,
                           total_earned_sats := a.total_earned_sats + task.bounty_sats,
                           reputation := a.reputation + 1 })
              | none => dbA
            let dbC := updateAgent dbB task.poster (fun a =>
              { a with reputation := a.reputation + 1 })
            appendActivity dbC taskId poster "verified"
              ("Approved. " ++ (if truthy payment_tx then
                "Paid: " ++ (match payment_tx with | some s => s | none => "")
                else "Awaiting payment."))
          else
            let dbA := updateTasksWhere db (fun t => t.id == taskId) (fun t =>
              { t with status := "disputed" })
            appendActivity dbA taskId poster "disputed"
              (match orNull reason with | some r => r | none => "Work not satisfactory")
        (.ok (.verifiedResp (if approved then "verified" else "disputed")), db1)

/-- PATCH /api/tasks/:id/cancel (index.ts lines 306-325). -/
def cancelTask (db : DB) (taskId : Nat) (poster : String) : Except ApiError ApiOk × DB :=
  if poster = "" then
    (.error ⟨400, "Required: poster"⟩, db)
  else
    match db.tasks.find? (fun t => t.id == taskId) with
    | none => (.error ⟨404, "Task not found"⟩, db)
    | some task =>
      if task.poster ≠ poster then (.error ⟨403, "Only the poster can cancel"⟩, db)
      else if task.status ≠ "open" then (.error ⟨400, "Can only cancel open tasks"⟩, db)
      else
        let db1 := updateTasksWhere db (fun t => t.id == taskId) (fun t =>
          { t with status := "cancelled" })
        let db2 := updateAgent db1 poster (fun a =>
          { a with total_spent_sats := a.total_spent_sats - task.bounty_sats })
        let db3 := appendActivity db2 taskId poster "cancelled" "Task cancelled"
        (.ok .cancelledOk, db3)

/-- The six state-changing operations of the service. -/
inductive Op where
  | create (poster title description : String) (bounty_sats : Int)
      (tags deadline posterName posterStx : Option String)
  | bid (taskId : Nat) (bidder : String) (amount_sats : Int)
      (message bidderName bidderStx : Option String)
  | accept (taskId : Nat) (poster : String) (bidId : Nat)
  | submit (taskId : Nat) (worker proof_url : String) (description : Option String)
  | verify (taskId : Nat) (poster : String) (approved : Bool) (payment_tx reason : Option String)
  | cancel (taskId : Nat) (poster : String)

def exec (db : DB) : Op → Except ApiError ApiOk × DB
  | .create p t d b tg dl pn ps => createTask db p t d b tg dl pn ps
  | .bid tid b a m bn bs => placeBid db tid b a m bn bs
  | .accept tid p bid => acceptBid db tid p bid
  | .submit tid w pu d => submitWork db tid w pu d
  | .verify tid p ap ptx r => verifyWork db tid p ap ptx r
  | .cancel tid p => cancelTask db tid p

def stepDB (db : DB) (op : Op) : DB := (exec db op).2

/-- States reachable from the empty database through the write endpoints. -/
inductive Reachable : DB → Prop where
  | init : Reachable initDB
  | step (db : DB) (op : Op) : Reachable db → Reachable (stepDB db op)

/-- The task id an operation targets, if any. -/
def Op.target : Op → Option Nat
  | .create _ _ _ _ _ _ _ _ => none
  | .bid tid _ _ _ _ _ => some tid
  | .accept tid _ _ => some tid
  | .submit tid _ _ _ => some tid
  | .verify tid _ _ _ _ => some tid
  | .cancel tid _ => some tid

/-- A verified/paid task's bounty counts toward its worker's earnings. -/
def contribOf (a : String) (t : Task) : Int :=
  if t.worker = some a ∧ (t.status = "verified" ∨ t.status = "paid") then t.bounty_sats else 0

/-- Sum of bounty_sats over tasks whose worker is `a` with status verified or paid. -/
def earnedSum (db : DB) (a : String) : Int := (db.tasks.map (contribOf a)).sum

/-- Number of bids of task `tid` currently in status accepted. -/
def acceptedCount (db : DB) (tid : Nat) : Nat :=
  db.bids.countP (fun b => b.task_id == tid && b.status == "accepted")

-- Concrete scenario run, used by witnesses: alice posts, bob bids, alice accepts,
-- bob submits, alice verifies; in a side branch alice cancels the open task.
def dbS1 : DB := stepDB initDB (.create "alice" "t1" "d1" 100 none none none none)
def dbS2 : DB := stepDB dbS1 (.bid 1 "bob" 80 none none none)
def dbS3 : DB := stepDB dbS2 (.accept 1 "alice" 1)
def dbS4 : DB := stepDB dbS3 (.submit 1 "bob" "https://x" none)
def dbS5 : DB := stepDB dbS4 (.verify 1 "alice" true none none)
def dbC : DB := stepDB dbS1 (.cancel 1 "alice")

example : dbS1.tasks = [⟨1, "alice", "t1", "d1", 100, "open",
    none, none, none, none, none, none⟩] := by decide

example : dbS2.bids = [⟨1, 1, "bob", 80, none, "pending"⟩] := by decide

example : dbS3.tasks = [⟨1, "alice", "t1", "d1", 80, "assigned",
    none, none, some "bob", none, none, none⟩] := by decide

example : dbS3.bids = [⟨1, 1, "bob", 80, none, "accepted"⟩] := by decide

example : (dbS5.agents "bob").total_earned_sats = 80 := by decide

example : (dbS5.agents "bob").reputation = 1 ∧ (dbS5.agents "alice").reputation = 1 := by
  constructor <;> decide

example : dbC.tasks = [⟨1, "alice", "t1", "d1", 100, "cancelled",
    none, none, none, none, none, none⟩] := by decide

example : (dbC.agents "alice").total_spent_sats = 0 := by decide

/-! ### Projection lemmas for the database helpers

The invariance development below culminates in `inv_reachable`: every database
reachable through the write endpoints satisfies the state invariant `Inv`.
-/

theorem ensureAgent_tasks (db : DB) (addr : String) (n s : Option String) :
    (ensureAgent db addr n s).tasks = db.tasks := rfl

theorem ensureAgent_bids (db : DB) (addr : String) (n s : Option String) :
    (ensureAgent db addr n s).bids = db.bids := rfl

theorem ensureAgent_activity (db : DB) (addr : String) (n s : Option String) :
    (ensureAgent db addr n s).activity = db.activity := rfl

theorem ensureAgent_nextTaskId (db : DB) (addr : String) (n s : Option String) :
    (ensureAgent db addr n s).nextTaskId = db.nextTaskId := rfl

theorem ensureAgent_nextBidId (db : DB) (addr : String) (n s : Option String) :
    (ensureAgent db addr n s).nextBidId = db.nextBidId := rfl

theorem ensureAgent_reputation (db : DB) (addr : String) (n s : Option String) (a : String) :
    ((ensureAgent db addr n s).agents a).reputation = (db.agents a).reputation := by
  simp only [ensureAgent]
  split
  next h => subst h; rfl
  next => rfl

theorem ensureAgent_earned (db : DB) (addr : String) (n s : Option String) (a : String) :
    ((ensureAgent db addr n s).agents a).total_earned_sats
      = (db.agents a).total_earned_sats := by
  simp only [ensureAgent]
  split
  next h => subst h; rfl
  next => rfl

theorem ensureAgent_spent (db : DB) (addr : String) (n s : Option String) (a : String) :
    ((ensureAgent db addr n s).agents a).total_spent_sats
      = (db.agents a).total_spent_sats := by
  simp only [ensureAgent]
  split
  next h => subst h; rfl
  next => rfl

theorem updateAgent_tasks (db : DB) (addr : String) (f : AgentRow → AgentRow) :
    (updateAgent db addr f).tasks = db.tasks := rfl

theorem updateAgent_bids (db : DB) (addr : String) (f : AgentRow → AgentRow) :
    (updateAgent db addr f).bids = db.bids := rfl

theorem updateAgent_activity (db : DB) (addr : String) (f : AgentRow → AgentRow) :
    (updateAgent db addr f).activity = db.activity := rfl

theorem updateAgent_nextTaskId (db : DB) (addr : String) (f : AgentRow → AgentRow) :
    (updateAgent db addr f).nextTaskId = db.nextTaskId := rfl

theorem updateAgent_nextBidId (db : DB) (addr : String) (f : AgentRow → AgentRow) :
    (updateAgent db addr f).nextBidId = db.nextBidId := rfl

theorem updateAgent_agents (db : DB) (addr : String) (f : AgentRow → AgentRow) (a : String) :
    (updateAgent db addr f).agents a
      = if a = addr then f (db.agents a) else db.agents a := rfl

theorem updateTasksWhere_tasks (db : DB) (c : Task → Bool) (f : Task → Task) :
    (updateTasksWhere db c f).tasks = db.tasks.map (fun t => if c t then f t else t) := rfl

theorem updateTasksWhere_bids (db : DB) (c : Task → Bool) (f : Task → Task) :
    (updateTasksWhere db c f).bids = db.bids := rfl

theorem updateTasksWhere_activity (db : DB) (c : Task → Bool) (f : Task → Task) :
    (updateTasksWhere db c f).activity = db.activity := rfl

theorem updateTasksWhere_agents (db : DB) (c : Task → Bool) (f : Task → Task) :
    (updateTasksWhere db c f).agents = db.agents := rfl

theorem updateTasksWhere_nextTaskId (db : DB) (c : Task → Bool) (f : Task → Task) :
    (updateTasksWhere db c f).nextTaskId = db.nextTaskId := rfl

theorem updateTasksWhere_nextBidId (db : DB) (c : Task → Bool) (f : Task → Task) :
    (updateTasksWhere db c f).nextBidId = db.nextBidId := rfl

theorem appendActivity_tasks (db : DB) (tid : Nat) (ac an de : String) :
    (appendActivity db tid ac an de).tasks = db.tasks := rfl

theorem appendActivity_bids (db : DB) (tid : Nat) (ac an de : String) :
    (appendActivity db tid ac an de).bids = db.bids := rfl

theorem appendActivity_agents (db : DB) (tid : Nat) (ac an de : String) :
    (appendActivity db tid ac an de).agents = db.agents := rfl

theorem appendActivity_activity (db : DB) (tid : Nat) (ac an de : String) :
    (appendActivity db tid ac an de).activity = db.activity ++ [⟨tid, ac, an, de⟩] := rfl

theorem appendActivity_nextTaskId (db : DB) (tid : Nat) (ac an de : String) :
    (appendActivity db tid ac an de).nextTaskId = db.nextTaskId := rfl

theorem appendActivity_nextBidId (db : DB) (tid : Nat) (ac an de : String) :
    (appendActivity db tid ac an de).nextBidId = db.nextBidId := rfl

/-! ### Generic list lemmas about conditional row updates -/

/-- An UPDATE whose WHERE clause matches no row leaves the table unchanged. -/
theorem map_ite_id {α : Type} (l : List α) (c : α → Bool) (f : α → α)
    (h : ∀ a ∈ l, c a = false) : l.map (fun a => if c a then f a else a) = l := by
  calc l.map (fun a => if c a then f a else a)
      = l.map id := List.map_congr_left (fun a ha => by simp [h a ha])
    _ = l := List.map_id l

/-- A projection untouched by the row transformer is untouched by the UPDATE. -/
theorem map_proj_update {α β : Type} (l : List α) (c : α → Bool) (f : α → α) (g : α → β)
    (hg : ∀ a, g (f a) = g a) :
    (l.map (fun a => if c a then f a else a)).map g = l.map g := by
  rw [List.map_map]
  exact List.map_congr_left (fun a _ => by
    by_cases h : c a <;> simp [Function.comp, h, hg])

/-- In a table whose key column is duplicate free, at most one row matches a key. -/
theorem countP_key_le_one {α : Type} (l : List α) (key : α → Nat) (x : Nat)
    (h : (l.map key).Nodup) : l.countP (fun a => key a == x) ≤ 1 := by
  induction l with
  | nil => simp
  | cons hd tl ih =>
    rw [List.map_cons, List.nodup_cons] at h
    obtain ⟨hnotin, hnd⟩ := h
    rw [List.countP_cons]
    by_cases hx : key hd = x
    · have htl : tl.countP (fun a => key a == x) = 0 := by
        rw [List.countP_eq_zero]
        intro a ha hax
        exact hnotin (by
          rw [beq_iff_eq] at hax
          rw [hx, ← hax]
          exact List.mem_map_of_mem key ha)
      simp [htl, hx]
    · have : (key hd == x) = false := by simp [hx]
      simp [this]
      exact ih hnd

/-- An UPDATE that does not change a row's contribution leaves the aggregate sum alone. -/
theorem sum_map_ite_congr {α : Type} (l : List α) (c : α → Bool) (f : α → α) (g : α → Int)
    (h : ∀ a ∈ l, c a = true → g (f a) = g a) :
    ((l.map (fun a => if c a then f a else a)).map g).sum = (l.map g).sum := by
  rw [List.map_map]
  exact congrArg List.sum (List.map_congr_left (fun a ha => by
    by_cases hc : c a <;> simp [Function.comp, hc, h a ha]))

/-- An UPDATE keyed on a duplicate-free key column changes the aggregate sum by
exactly the delta of the single matched row. -/
theorem sum_map_ite_single {α : Type} (l : List α) (key : α → Nat) (tid : Nat)
    (f : α → α) (g : α → Int) (hnd : (l.map key).Nodup)
    (t0 : α) (h0 : t0 ∈ l) (hid : key t0 = tid) :
    ((l.map (fun a => if key a == tid then f a else a)).map g).sum
      = (l.map g).sum - g t0 + g (f t0) := by
  induction l with
  | nil => cases h0
  | cons hd tl ih =>
    rw [List.map_cons, List.nodup_cons] at hnd
    obtain ⟨hnotin, hnd'⟩ := hnd
    rcases List.mem_cons.mp h0 with h0 | h0
    · subst h0
      have hhd : (key t0 == tid) = true := by simp [hid]
      have htl : tl.map (fun a => if key a == tid then f a else a) = tl := by
        apply map_ite_id
        intro a ha
        have : key a ≠ tid := by
          intro hk
          exact hnotin (by rw [hid, ← hk]; exact List.mem_map_of_mem key ha)
        simp [this]
      simp only [List.map_cons, hhd, if_true, htl, List.sum_cons]
      omega
    · have hne : key hd ≠ tid := by
        intro hk
        exact hnotin (by rw [hk, ← hid]; exact List.mem_map_of_mem key h0)
      have hhd : (key hd == tid) = false := by simp [hne]
      have := ih hnd' h0
      simp only [List.map_cons, hhd, if_false, List.sum_cons, Bool.false_eq_true]
      omega

/-- Rows of an updated table come from rows of the old table. -/
theorem mem_map_ite {α : Type} {l : List α} {c : α → Bool} {f : α → α} {a : α}
    (h : a ∈ l.map (fun x => if c x then f x else x)) :
    ∃ x ∈ l, a = if c x then f x else x := by
  obtain ⟨x, hx, hax⟩ := List.mem_map.mp h
  exact ⟨x, hx, hax.symm⟩

/-- The net effect of the two-statement accept cascade on a single bid row:
the accepted bid wins, other pending bids of the task are rejected. -/
def casc (bidId tid : Nat) (b : Bid) : Bid :=
  if b.id == bidId then { b with status := "accepted" }
  else if b.task_id == tid && b.status == "pending" then { b with status := "rejected" }
  else b

theorem casc_id (bidId tid : Nat) (b : Bid) : (casc bidId tid b).id = b.id := by
  unfold casc
  split
  · rfl
  split <;> rfl

theorem casc_task_id (bidId tid : Nat) (b : Bid) : (casc bidId tid b).task_id = b.task_id := by
  unfold casc
  split
  · rfl
  split <;> rfl

/-- The two UPDATE statements of the accept batch compose into the single-pass `casc`. -/
theorem accept_cascade_eq (l : List Bid) (bidId tid : Nat) :
    (l.map (fun (b : Bid) =>
        if b.id == bidId then { b with status := "accepted" } else b)).map
      (fun (b : Bid) =>
        if b.task_id == tid && b.id != bidId && b.status == "pending"
        then { b with status := "rejected" } else b)
    = l.map (casc bidId tid) := by
  rw [List.map_map]
  apply List.map_congr_left
  intro b _
  simp only [Function.comp, casc]
  by_cases hid : b.id == bidId
  · simp [hid]
  · have hid' : (b.id == bidId) = false := by simpa using hid
    simp [hid', bne]

/-- A conditional UPDATE that matched zero rows leaves the database unchanged. -/
theorem updateTasksWhere_zero (db : DB) (c : Task → Bool) (f : Task → Task)
    (hz : db.tasks.countP c = 0) : updateTasksWhere db c f = db := by
  unfold updateTasksWhere
  rw [map_ite_id _ _ _ (by
    intro a ha
    have := List.countP_eq_zero.mp hz a ha
    simpa using this)]

/-! ### The state invariant preserved by every write operation -/

structure Inv (db : DB) : Prop where
  taskIdsNodup : (db.tasks.map Task.id).Nodup
  bidIdsNodup : (db.bids.map Bid.id).Nodup
  taskIdLt : ∀ t ∈ db.tasks, t.id < db.nextTaskId
  bidIdLt : ∀ b ∈ db.bids, b.id < db.nextBidId
  bidTaskLt : ∀ b ∈ db.bids, b.task_id < db.nextTaskId
  workerIff : ∀ t ∈ db.tasks, (t.worker = none ↔ (t.status = "open" ∨ t.status = "cancelled"))
  acceptedNotOpen : ∀ b ∈ db.bids, b.status = "accepted" →
    ∀ t ∈ db.tasks, t.id = b.task_id → t.status ≠ "open"
  acceptedAtMostOne : ∀ tid, acceptedCount db tid ≤ 1
  earnedOk : ∀ a, (db.agents a).total_earned_sats = earnedSum db a

theorem inv_init : Inv initDB := by
  constructor
  all_goals simp [initDB, earnedSum, acceptedCount, AgentRow.init]

theorem inv_create (db : DB) (p ti de : String) (bo : Int) (tg dl pn ps : Option String)
    (h : Inv db) : Inv (createTask db p ti de bo tg dl pn ps).2 := by
  unfold createTask
  split
  · exact h
  split
  · exact h
  dsimp only [appendActivity, updateAgent, ensureAgent_tasks, ensureAgent_bids,
    ensureAgent_nextTaskId, ensureAgent_nextBidId]
  constructor
  case taskIdsNodup =>
    simp only [ensureAgent_tasks, ensureAgent_nextTaskId, List.map_append, List.map_cons,
      List.map_nil]
    rw [List.nodup_append]
    refine ⟨h.taskIdsNodup, by simp, ?_⟩
    intro a ha hb
    simp only [List.mem_cons, List.not_mem_nil, or_false] at hb
    obtain ⟨t, ht, hta⟩ := List.mem_map.mp ha
    have := h.taskIdLt t ht
    omega
  case bidIdsNodup =>
    simpa only [ensureAgent_bids] using h.bidIdsNodup
  case taskIdLt =>
    intro t ht
    simp only [ensureAgent_tasks, ensureAgent_nextTaskId, List.mem_append, List.mem_cons,
      List.not_mem_nil, or_false] at ht ⊢
    rcases ht with ht | ht
    · have := h.taskIdLt t ht; omega
    · subst ht; simp
  case bidIdLt =>
    intro b hb
    simp only [ensureAgent_bids, ensureAgent_nextBidId] at hb ⊢
    exact h.bidIdLt b hb
  case bidTaskLt =>
    intro b hb
    simp only [ensureAgent_bids, ensureAgent_nextTaskId] at hb ⊢
    have := h.bidTaskLt b hb
    omega
  case workerIff =>
    intro t ht
    simp only [ensureAgent_tasks, List.mem_append, List.mem_cons, List.not_mem_nil,
      or_false] at ht
    rcases ht with ht | ht
    · exact h.workerIff t ht
    · subst ht; simp
  case acceptedNotOpen =>
    intro b hb hacc t ht htid
    simp only [ensureAgent_bids] at hb
    simp only [ensureAgent_tasks, List.mem_append, List.mem_cons, List.not_mem_nil,
      or_false] at ht
    rcases ht with ht | ht
    · exact h.acceptedNotOpen b hb hacc t ht htid
    · subst ht
      have := h.bidTaskLt b hb
      simp only [ensureAgent_nextTaskId] at htid
      omega
  case acceptedAtMostOne =>
    intro tid
    simpa only [acceptedCount, ensureAgent_bids] using h.acceptedAtMostOne tid
  case earnedOk =>
    intro a
    have hbase := h.earnedOk a
    simp only [earnedSum] at hbase
    dsimp only
    simp only [earnedSum, List.map_append, List.sum_append, List.map_cons, List.map_nil,
      List.sum_cons, List.sum_nil, add_zero]
    have hnew : contribOf a ⟨db.nextTaskId, p, ti, de, bo, "open", orNull tg, orNull dl,
        none, none, none, none⟩ = 0 := by simp [contribOf]
    rw [hnew, add_zero]
    by_cases hap : a = p
    · subst hap
      simp only [if_pos rfl]
      rw [ensureAgent_earned]
      exact hbase
    · simp only [if_neg hap]
      rw [ensureAgent_earned]
      exact hbase

theorem inv_accept (db : DB) (tid : Nat) (poster : String) (bidId : Nat)
    (h : Inv db) : Inv (acceptBid db tid poster bidId).2 := by
  unfold acceptBid
  split
  · exact h
  split
  · exact h
  next bid heq =>
    have hbmem := List.mem_of_find?_eq_some heq
    have hbpred := List.find?_some heq
    simp only [Bool.and_eq_true, beq_iff_eq] at hbpred
    obtain ⟨hbid, hbtask⟩ := hbpred
    dsimp only
    split
    next hz =>
      rw [updateTasksWhere_zero db _ _ hz]
      exact h
    next hnz =>
      obtain ⟨t0, ht0mem, ht0g⟩ :=
        List.countP_pos_iff.mp (Nat.pos_of_ne_zero hnz)
      have ht0' : (t0.id = tid ∧ t0.status = "open") ∧ t0.poster = poster := by
        simpa [acceptGuard, Bool.and_eq_true, beq_iff_eq] using ht0g
      obtain ⟨⟨ht0id, ht0st⟩, ht0p⟩ := ht0'
      have hBidUnique : ∀ b ∈ db.bids, b.id = bidId → b = bid := by
        intro b hb hbeq
        exact List.inj_on_of_nodup_map h.bidIdsNodup hb hbmem (by rw [hbeq, hbid])
      have hTaskUnique : ∀ t ∈ db.tasks, t.id = tid → t = t0 := by
        intro t ht hteq
        exact List.inj_on_of_nodup_map h.taskIdsNodup ht ht0mem (by rw [hteq, ht0id])
      rw [updateTasksWhere_bids, accept_cascade_eq]
      constructor
      case taskIdsNodup =>
        dsimp only [appendActivity, updateTasksWhere]
        rw [List.map_map]
        have hids : ∀ t ∈ db.tasks, (Task.id ∘ fun t =>
            if acceptGuard tid poster t then
              { t with status := "assigned", worker := some bid.bidder,
                       bounty_sats := bid.amount_sats } else t) t = Task.id t := by
          intro t _
          by_cases hg : acceptGuard tid poster t <;> simp [Function.comp, hg]
        rw [List.map_congr_left hids]
        exact h.taskIdsNodup
      case bidIdsNodup =>
        dsimp only [appendActivity]
        rw [List.map_map]
        have hids : ∀ b ∈ db.bids, (Bid.id ∘ casc bidId tid) b = Bid.id b := by
          intro b _
          exact casc_id bidId tid b
        rw [List.map_congr_left hids]
        exact h.bidIdsNodup
      case taskIdLt =>
        intro t' ht'
        dsimp only [appendActivity, updateTasksWhere] at ht' ⊢
        rcases mem_map_ite ht' with ⟨t, ht, rfl⟩
        have := h.taskIdLt t ht
        by_cases hg : acceptGuard tid poster t <;> simp [hg] <;> omega
      case bidIdLt =>
        intro b' hb'
        dsimp only [appendActivity] at hb' ⊢
        rcases List.mem_map.mp hb' with ⟨b, hb, rfl⟩
        rw [casc_id]
        exact h.bidIdLt b hb
      case bidTaskLt =>
        intro b' hb'
        dsimp only [appendActivity] at hb' ⊢
        rcases List.mem_map.mp hb' with ⟨b, hb, rfl⟩
        rw [casc_task_id]
        exact h.bidTaskLt b hb
      case workerIff =>
        intro t' ht'
        dsimp only [appendActivity, updateTasksWhere] at ht'
        rcases mem_map_ite ht' with ⟨t, ht, rfl⟩
        by_cases hg : acceptGuard tid poster t
        · simp [hg]
        · simp only [hg, if_neg, Bool.false_eq_true, if_false]
          exact h.workerIff t ht
      case acceptedNotOpen =>
        intro b' hb' hacc t' ht' htid'
        dsimp only [appendActivity, updateTasksWhere] at hb' ht'
        rcases List.mem_map.mp hb' with ⟨b, hb, rfl⟩
        rcases mem_map_ite ht' with ⟨t, ht, rfl⟩
        rw [casc_task_id] at htid'
        by_cases hg : acceptGuard tid poster t
        · simp [hg]
        · simp only [hg, Bool.false_eq_true, if_false] at htid' ⊢
          by_cases hidb : b.id = bidId
          · exfalso
            have hbeq : b = bid := hBidUnique b hb hidb
            have hteq : t = t0 := hTaskUnique t ht (by rw [htid', hbeq, hbtask])
            rw [hteq] at hg
            exact hg ht0g
          · by_cases hpend : b.task_id = tid ∧ b.status = "pending"
            · exfalso
              have : casc bidId tid b = { b with status := "rejected" } := by
                simp [casc, hidb, hpend]
              rw [this] at hacc
              simp at hacc
            · have hcb : casc bidId tid b = b := by
                simp only [casc]
                rw [if_neg (by simp [hidb]), if_neg (by
                  simp only [Bool.and_eq_true, beq_iff_eq]
                  exact fun hc => hpend ⟨hc.1, hc.2⟩)]
              rw [hcb] at hacc
              exact h.acceptedNotOpen b hb hacc t ht htid'
      case acceptedAtMostOne =>
        intro tid2
        simp only [acceptedCount]
        dsimp only [appendActivity]
        rw [List.countP_map]
        by_cases htid2 : tid2 = tid
        · subst htid2
          refine le_trans (List.countP_mono_left ?_)
            (countP_key_le_one db.bids Bid.id bidId h.bidIdsNodup)
          intro b hb hpb
          simp only [Function.comp, Bool.and_eq_true, beq_iff_eq] at hpb
          by_cases hidb : b.id = bidId
          · simp [hidb]
          · exfalso
            by_cases hpend : b.task_id = tid2 ∧ b.status = "pending"
            · have : casc bidId tid2 b = { b with status := "rejected" } := by
                simp [casc, hidb, hpend]
              rw [this] at hpb
              simp at hpb
            · have hcb : casc bidId tid2 b = b := by
                simp only [casc]
                rw [if_neg (by simp [hidb]), if_neg (by
                  simp only [Bool.and_eq_true, beq_iff_eq]
                  exact fun hc => hpend ⟨hc.1, hc.2⟩)]
              rw [hcb] at hpb
              have := h.acceptedNotOpen b hb hpb.2 t0 ht0mem (by rw [ht0id, hpb.1])
              exact this ht0st
        · have hle1 : List.countP
              ((fun b => b.task_id == tid2 && b.status == "accepted") ∘ casc bidId tid)
              db.bids ≤ List.countP (fun b => b.task_id == tid2 && b.status == "accepted")
              db.bids := by
            apply List.countP_mono_left
            intro b hb hpb
            simp only [Function.comp, casc_task_id, Bool.and_eq_true, beq_iff_eq] at hpb ⊢
            refine ⟨hpb.1, ?_⟩
            rcases hpb with ⟨hb2, hacc⟩
            by_cases hidb : b.id = bidId
            · exfalso
              have hbeq : b = bid := hBidUnique b hb hidb
              rw [hbeq] at hb2
              exact htid2 (by rw [← hb2, hbtask])
            · by_cases hpend : b.task_id = tid ∧ b.status = "pending"
              · exfalso
                have : casc bidId tid b = { b with status := "rejected" } := by
                  simp [casc, hidb, hpend]
                rw [this] at hacc
                simp at hacc
              · have hcb : casc bidId tid b = b := by
                  simp only [casc]
                  rw [if_neg (by simp [hidb]), if_neg (by
                    simp only [Bool.and_eq_true, beq_iff_eq]
                    exact fun hc => hpend ⟨hc.1, hc.2⟩)]
                rw [hcb] at hacc
                exact hacc
          exact le_trans hle1 (h.acceptedAtMostOne tid2)
      case earnedOk =>
        intro a
        dsimp only [appendActivity, updateTasksWhere]
        rw [h.earnedOk a]
        simp only [earnedSum]
        refine (sum_map_ite_congr db.tasks _ _ _ ?_).symm
        intro t ht hg
        have hts : t.status = "open" := by
          have hg' := hg
          simp only [acceptGuard, Bool.and_eq_true, beq_iff_eq] at hg'
          exact hg'.1.2
        simp [contribOf, hts]

theorem inv_appendActivity (db : DB) (tid : Nat) (ac an de : String)
    (h : Inv db) : Inv (appendActivity db tid ac an de) := by
  constructor
  case taskIdsNodup => exact h.taskIdsNodup
  case bidIdsNodup => exact h.bidIdsNodup
  case taskIdLt => exact h.taskIdLt
  case bidIdLt => exact h.bidIdLt
  case bidTaskLt => exact h.bidTaskLt
  case workerIff => exact h.workerIff
  case acceptedNotOpen => exact h.acceptedNotOpen
  case acceptedAtMostOne => exact h.acceptedAtMostOne
  case earnedOk => exact h.earnedOk

theorem inv_updateAgent_earned (db : DB) (addr : String) (f : AgentRow → AgentRow)
    (hf : ∀ r, (f r).total_earned_sats = r.total_earned_sats)
    (h : Inv db) : Inv (updateAgent db addr f) := by
  constructor
  case taskIdsNodup => exact h.taskIdsNodup
  case bidIdsNodup => exact h.bidIdsNodup
  case taskIdLt => exact h.taskIdLt
  case bidIdLt => exact h.bidIdLt
  case bidTaskLt => exact h.bidTaskLt
  case workerIff => exact h.workerIff
  case acceptedNotOpen => exact h.acceptedNotOpen
  case acceptedAtMostOne => exact h.acceptedAtMostOne
  case earnedOk =>
    intro a
    rw [updateAgent_agents]
    split
    · rw [hf]
      exact h.earnedOk a
    · exact h.earnedOk a

/-- Invariance of a single-row task update keyed by id that keeps the row's id,
its worker/status relationship, its openness negative, and its earnings
contribution. -/
theorem inv_of_update (db : DB) (tid : Nat) (f : Task → Task) (task : Task)
    (h : Inv db) (htmem : task ∈ db.tasks) (htid : task.id = tid)
    (hfid : ∀ t, (f t).id = t.id)
    (hfiff : (f task).worker = none ↔
      ((f task).status = "open" ∨ (f task).status = "cancelled"))
    (hfnotopen : (f task).status ≠ "open")
    (hcontrib : ∀ a, contribOf a (f task) = contribOf a task) :
    Inv { db with tasks := db.tasks.map (fun t => if t.id == tid then f t else t) } := by
  have hTaskUnique : ∀ t ∈ db.tasks, t.id = tid → t = task := by
    intro t ht hteq
    exact List.inj_on_of_nodup_map h.taskIdsNodup ht htmem (by rw [hteq, htid])
  constructor
  case taskIdsNodup =>
    dsimp only
    rw [List.map_map]
    have hids : ∀ t ∈ db.tasks,
        (Task.id ∘ fun t => if t.id == tid then f t else t) t = Task.id t := by
      intro t _
      by_cases hg : t.id == tid <;> simp [Function.comp, hg, hfid]
    rw [List.map_congr_left hids]
    exact h.taskIdsNodup
  case bidIdsNodup => exact h.bidIdsNodup
  case taskIdLt =>
    intro t' ht'
    dsimp only at ht' ⊢
    rcases mem_map_ite ht' with ⟨t, ht, rfl⟩
    have := h.taskIdLt t ht
    by_cases hg : t.id == tid <;> simp [hg, hfid] <;> omega
  case bidIdLt => exact h.bidIdLt
  case bidTaskLt => exact h.bidTaskLt
  case workerIff =>
    intro t' ht'
    dsimp only at ht'
    rcases mem_map_ite ht' with ⟨t, ht, rfl⟩
    by_cases hg : t.id == tid
    · have : t = task := hTaskUnique t ht (by simpa using hg)
      subst this
      simpa [hg] using hfiff
    · simp only [hg, Bool.false_eq_true, if_false]
      exact h.workerIff t ht
  case acceptedNotOpen =>
    intro b hb hacc t' ht' htid'
    dsimp only at hb ht'
    rcases mem_map_ite ht' with ⟨t, ht, rfl⟩
    by_cases hg : t.id == tid
    · have hteq : t = task := hTaskUnique t ht (by simpa using hg)
      subst hteq
      simpa [hg] using hfnotopen
    · simp only [hg, Bool.false_eq_true, if_false] at htid' ⊢
      exact h.acceptedNotOpen b hb hacc t ht htid'
  case acceptedAtMostOne => exact h.acceptedAtMostOne
  case earnedOk =>
    intro a
    have := h.earnedOk a
    dsimp only
    rw [this]
    simp only [earnedSum]
    refine (sum_map_ite_congr db.tasks _ _ _ ?_).symm
    intro t ht hg
    have hteq : t = task := hTaskUnique t ht (by simpa using hg)
    subst hteq
    exact hcontrib a

theorem inv_submit (db : DB) (tid : Nat) (worker pu : String) (de : Option String)
    (h : Inv db) : Inv (submitWork db tid worker pu de).2 := by
  unfold submitWork
  split
  · exact h
  split
  · exact h
  next task heq =>
    split
    · exact h
    next hworker =>
      split
      · exact h
      next hstatus =>
        have htmem := List.mem_of_find?_eq_some heq
        have htid : task.id = tid := by simpa using List.find?_some heq
        rw [Ne, not_not] at hworker hstatus
        dsimp only
        apply inv_appendActivity
        apply inv_of_update db tid _ task h htmem htid
        · intro t; rfl
        · dsimp only
          rw [hworker]
          simp
        · dsimp only
          simp
        · intro a
          simp [contribOf, hstatus]

theorem inv_cancel (db : DB) (tid : Nat) (poster : String)
    (h : Inv db) : Inv (cancelTask db tid poster).2 := by
  unfold cancelTask
  split
  · exact h
  split
  · exact h
  next task heq =>
    split
    · exact h
    next hposter =>
      split
      · exact h
      next hstatus =>
        have htmem := List.mem_of_find?_eq_some heq
        have htid : task.id = tid := by simpa using List.find?_some heq
        rw [Ne, not_not] at hposter hstatus
        have hwnone : task.worker = none :=
          (h.workerIff task htmem).mpr (Or.inl hstatus)
        dsimp only
        apply inv_appendActivity
        apply inv_updateAgent_earned
        · intro r; rfl
        apply inv_of_update db tid _ task h htmem htid
        · intro t; rfl
        · dsimp only
          rw [hwnone]
          simp
        · dsimp only
          simp
        · intro a
          simp [contribOf, hstatus, hwnone]

theorem inv_verify (db : DB) (tid : Nat) (poster : String) (ap : Bool)
    (ptx rs : Option String) (h : Inv db) : Inv (verifyWork db tid poster ap ptx rs).2 := by
  unfold verifyWork
  split
  · exact h
  split
  · exact h
  next task heq =>
    split
    · exact h
    next hposter =>
      split
      · exact h
      next hstatus =>
        have htmem := List.mem_of_find?_eq_some heq
        have htid : task.id = tid := by simpa using List.find?_some heq
        rw [Ne, not_not] at hposter hstatus
        obtain ⟨w, hw⟩ : ∃ w, task.worker = some w := by
          cases hwc : task.worker with
          | none =>
            exfalso
            have := (h.workerIff task htmem).mp hwc
            rw [hstatus] at this
            simp at this
          | some w => exact ⟨w, rfl⟩
        dsimp only
        cases ap with
        | false =>
          simp only [Bool.false_eq_true, if_false]
          apply inv_appendActivity
          apply inv_of_update db tid _ task h htmem htid
          · intro t; rfl
          · dsimp only
            rw [hw]
            simp
          · dsimp only
            simp
          · intro a
            simp [contribOf, hstatus]
        | true =>
          simp only [if_true]
          rw [hw]
          apply inv_appendActivity
          apply inv_updateAgent_earned
          · intro r; rfl
          -- the worker ledger update together with the task status flip
          constructor
          case taskIdsNodup =>
            dsimp only [updateAgent, updateTasksWhere]
            rw [List.map_map]
            have hids : ∀ t ∈ db.tasks,
                (Task.id ∘ fun t => if t.id == tid then
                  { t with status := if truthy ptx then "paid" else "verified",
                           payment_tx := orNull ptx } else t) t = Task.id t := by
              intro t _
              by_cases hg : t.id == tid <;> simp [Function.comp, hg]
            rw [List.map_congr_left hids]
            exact h.taskIdsNodup
          case bidIdsNodup => exact h.bidIdsNodup
          case taskIdLt =>
            intro t' ht'
            dsimp only [updateAgent, updateTasksWhere] at ht' ⊢
            rcases mem_map_ite ht' with ⟨t, ht, rfl⟩
            have := h.taskIdLt t ht
            by_cases hg : t.id == tid <;> simp [hg] <;> omega
          case bidIdLt => exact h.bidIdLt
          case bidTaskLt => exact h.bidTaskLt
          case workerIff =>
            intro t' ht'
            dsimp only [updateAgent, updateTasksWhere] at ht'
            rcases mem_map_ite ht' with ⟨t, ht, rfl⟩
            by_cases hg : t.id == tid
            · have hteq : t = task := List.inj_on_of_nodup_map h.taskIdsNodup ht htmem
                (by rw [show t.id = tid by simpa using hg, htid])
              subst hteq
              by_cases hp : truthy ptx <;> simp [hg, hp, hw]
            · simp only [hg, Bool.false_eq_true, if_false]
              exact h.workerIff t ht
          case acceptedNotOpen =>
            intro b hb hacc t' ht' htid'
            dsimp only [updateAgent, updateTasksWhere] at hb ht'
            rcases mem_map_ite ht' with ⟨t, ht, rfl⟩
            by_cases hg : t.id == tid
            · by_cases hp : truthy ptx <;> simp [hg, hp]
            · simp only [hg, Bool.false_eq_true, if_false] at htid' ⊢
              exact h.acceptedNotOpen b hb hacc t ht htid'
          case acceptedAtMostOne => exact h.acceptedAtMostOne
          case earnedOk =>
            intro a
            dsimp only [updateAgent, updateTasksWhere]
            have hsingle := sum_map_ite_single db.tasks Task.id tid
              (fun t => { t with
                status := (if truthy ptx then "paid" else "verified"),
                payment_tx := orNull ptx })
              (contribOf a) h.taskIdsNodup task htmem htid
            simp only [earnedSum]
            rw [hsingle]
            have hold : contribOf a task = 0 := by simp [contribOf, hstatus]
            have hnew : contribOf a { task with
                status := if truthy ptx then "paid" else "verified",
                payment_tx := orNull ptx }
                = if a = w then task.bounty_sats else 0 := by
              by_cases haw : a = w
              · subst haw
                by_cases hp : truthy ptx <;> simp [contribOf, hp, hw]
              · have haw' : w ≠ a := fun hx => haw hx.symm
                by_cases hp : truthy ptx <;> simp [contribOf, hp, hw, haw', haw]
            rw [hold, hnew]
            by_cases haw : a = w
            · subst haw
              simp [h.earnedOk a, earnedSum]
            · simp [if_neg haw, h.earnedOk a, earnedSum]

theorem inv_bid (db : DB) (tid : Nat) (bidder : String) (amt : Int) (m bn bs : Option String)
    (h : Inv db) : Inv (placeBid db tid bidder amt m bn bs).2 := by
  unfold placeBid
  split
  · exact h
  split
  · exact h
  next task heq =>
    split
    · exact h
    split
    · exact h
    have htmem := List.mem_of_find?_eq_some heq
    have htid : task.id = tid := by simpa using List.find?_some heq
    dsimp only [appendActivity, ensureAgent_bids, ensureAgent_tasks, ensureAgent_nextBidId,
      ensureAgent_nextTaskId]
    constructor
    case taskIdsNodup => exact h.taskIdsNodup
    case bidIdsNodup =>
      simp only [List.map_append, List.map_cons, List.map_nil]
      rw [List.nodup_append]
      refine ⟨h.bidIdsNodup, by simp, ?_⟩
      intro x hx hb
      simp only [List.mem_cons, List.not_mem_nil, or_false] at hb
      obtain ⟨b, hbmem, hbx⟩ := List.mem_map.mp hx
      have := h.bidIdLt b hbmem
      omega
    case taskIdLt => exact h.taskIdLt
    case bidIdLt =>
      intro b hb
      simp only [List.mem_append, List.mem_cons, List.not_mem_nil, or_false] at hb
      rcases hb with hb | hb
      · have := h.bidIdLt b hb
        dsimp only
        omega
      · subst hb; simp
    case bidTaskLt =>
      intro b hb
      simp only [List.mem_append, List.mem_cons, List.not_mem_nil, or_false] at hb
      rcases hb with hb | hb
      · exact h.bidTaskLt b hb
      · subst hb
        dsimp only
        rw [← htid]
        exact h.taskIdLt task htmem
    case workerIff => exact h.workerIff
    case acceptedNotOpen =>
      intro b hb hacc t ht htid2
      simp only [List.mem_append, List.mem_cons, List.not_mem_nil, or_false] at hb
      rcases hb with hb | hb
      · exact h.acceptedNotOpen b hb hacc t ht htid2
      · subst hb; simp at hacc
    case acceptedAtMostOne =>
      intro tid2
      simp only [acceptedCount, List.countP_append]
      have hz : List.countP (fun b => b.task_id == tid2 && b.status == "accepted")
          [(⟨db.nextBidId, tid, bidder, amt, orNull m, "pending"⟩ : Bid)] = 0 := by
        simp [List.countP_cons]
      rw [hz, add_zero]
      exact h.acceptedAtMostOne tid2
    case earnedOk =>
      intro a
      have hbase := h.earnedOk a
      simp only [earnedSum] at hbase ⊢
      rw [ensureAgent_earned]
      exact hbase

theorem inv_step (db : DB) (op : Op) (h : Inv db) : Inv (stepDB db op) := by
  cases op with
  | create p ti de bo tg dl pn ps => exact inv_create db p ti de bo tg dl pn ps h
  | bid tid b a m bn bs => exact inv_bid db tid b a m bn bs h
  | accept tid p bid => exact inv_accept db tid p bid h
  | submit tid w pu d => exact inv_submit db tid w pu d h
  | verify tid p ap ptx r => exact inv_verify db tid p ap ptx r h
  | cancel tid p => exact inv_cancel db tid p h

theorem inv_reachable (db : DB) (h : Reachable db) : Inv db := by
  induction h with
  | init => exact inv_init
  | step db op _ ih => exact inv_step db op ih

/-! ### Reachability of the concrete scenario states -/

theorem reach_dbS1 : Reachable dbS1 :=
  Reachable.step initDB (.create "alice" "t1" "d1" 100 none none none none) Reachable.init

theorem reach_dbS2 : Reachable dbS2 :=
  Reachable.step dbS1 (.bid 1 "bob" 80 none none none) reach_dbS1

theorem reach_dbS3 : Reachable dbS3 :=
  Reachable.step dbS2 (.accept 1 "alice" 1) reach_dbS2

theorem reach_dbS4 : Reachable dbS4 :=
  Reachable.step dbS3 (.submit 1 "bob" "https://x" none) reach_dbS3

theorem reach_dbS5 : Reachable dbS5 :=
  Reachable.step dbS4 (.verify 1 "alice" true none none) reach_dbS4

theorem reach_dbC : Reachable dbC :=
  Reachable.step dbS1 (.cancel 1 "alice") reach_dbS1

/-- The accept cascade in its claim-level form: the accepted bid becomes accepted,
every other pending bid of the task becomes rejected, all other bids are untouched. -/
theorem casc_prop_form (l : List Bid) (bidId tid : Nat) :
    l.map (casc bidId tid) = l.map (fun b =>
      if b.id = bidId then { b with status := "accepted" }
      else if b.task_id = tid ∧ b.status = "pending" then { b with status := "rejected" }
      else b) := by
  apply List.map_congr_left
  intro b _
  by_cases h1 : b.id = bidId
  · simp [casc, h1]
  · by_cases h2 : b.task_id = tid ∧ b.status = "pending"
    · simp [casc, h1, h2]
    · simp only [casc, h2, if_false]
      rw [if_neg (by simp [h1]), if_neg (by
        simp only [Bool.and_eq_true, beq_iff_eq]
        exact fun hc => h2 ⟨hc.1, hc.2⟩), if_neg h1]

/-! ### Claim theorems -/

/-- C2 counterexample: the claim "worker is null iff status is open" fails on the
reachable state obtained by creating a task and cancelling it: the cancelled task
still has a null worker but its status is not "open". -/
theorem C2_counterexample :
    Reachable dbC ∧ ∃ t ∈ dbC.tasks, t.worker = none ∧ t.status ≠ "open" := by
  refine ⟨reach_dbC, ?_⟩
  decide

/-- C2 (amended): for every reachable task, worker is null iff the status is
"open" or "cancelled"; creation produces an open task with null worker, AcceptBid
sets the worker in the same update that sets status assigned, and cancellation
leaves the worker null while moving the status to cancelled. -/
theorem C2_worker_null_iff (db : DB) (h : Reachable db) :
    ∀ t ∈ db.tasks, (t.worker = none ↔ (t.status = "open" ∨ t.status = "cancelled")) :=
  (inv_reachable db h).workerIff

theorem C2_worker_null_iff_witness :
    Reachable dbC ∧
      ∀ t ∈ dbC.tasks, (t.worker = none ↔ (t.status = "open" ∨ t.status = "cancelled")) :=
  ⟨reach_dbC, C2_worker_null_iff dbC reach_dbC⟩

/-- C3: in every reachable state each task has at most one accepted bid, and a
successful AcceptBid sets the named bid to accepted, every other pending bid of
the task to rejected, and leaves all other bids (withdrawn or otherwise
non-pending) unchanged. -/
theorem C3_accepted_unique (db : DB) (h : Reachable db) :
    (∀ tid, acceptedCount db tid ≤ 1) ∧
    (∀ taskId poster bidId bid,
      db.bids.find? (fun b => b.id == bidId && b.task_id == taskId) = some bid →
      ∀ r db', acceptBid db taskId poster bidId = (.ok r, db') →
        db'.bids = db.bids.map (fun b =>
          if b.id = bidId then { b with status := "accepted" }
          else if b.task_id = taskId ∧ b.status = "pending" then { b with status := "rejected" }
          else b)) := by
  constructor
  · exact (inv_reachable db h).acceptedAtMostOne
  · intro taskId poster bidId bid hfind r db' heq
    unfold acceptBid at heq
    split at heq
    · cases heq
    · split at heq
      next heq2 => cases heq
      next bid2 heq2 =>
        dsimp only at heq
        split at heq
        · cases heq
        · injection heq with h1 h2
          subst h2
          dsimp only [appendActivity]
          rw [updateTasksWhere_bids, accept_cascade_eq]
          exact casc_prop_form db.bids bidId taskId

theorem C3_accepted_unique_witness :
    Reachable dbS3 ∧ acceptedCount dbS3 1 ≤ 1 :=
  ⟨reach_dbS3, (C3_accepted_unique dbS3 reach_dbS3).1 1⟩

/-- C5: in every reachable state, each agent's total_earned_sats equals the sum
of bounty_sats over tasks whose worker is that agent with status verified or
paid. -/
theorem C5_earned_sum (db : DB) (h : Reachable db) :
    ∀ a, (db.agents a).total_earned_sats = earnedSum db a :=
  (inv_reachable db h).earnedOk

theorem C5_earned_sum_witness :
    Reachable dbS5 ∧ (dbS5.agents "bob").total_earned_sats = earnedSum dbS5 "bob" :=
  ⟨reach_dbS5, C5_earned_sum dbS5 reach_dbS5 "bob"⟩

/-- C1: when the named bid exists and belongs to the task, the accept handler is
driven entirely by the conditional update guarded on status "open" and poster
equality: if the guard matches zero rows the call answers the 409 conflict and
the whole database is unchanged (the cascade does not run); if it matches, the
task row becomes assigned to the bid's bidder at the bid's amount, the cascade
runs, and the activity record is appended. -/
theorem C1_accept_conditional (db : DB) (taskId : Nat) (poster : String) (bidId : Nat)
    (bid : Bid)
    (hreq : ¬(poster = "" ∨ bidId = 0))
    (hbid : db.bids.find? (fun b => b.id == bidId && b.task_id == taskId) = some bid) :
    (db.tasks.countP (acceptGuard taskId poster) = 0 →
      acceptBid db taskId poster bidId
        = (.error ⟨409, "Task already accepted or not open, or not your task"⟩, db)) ∧
    (db.tasks.countP (acceptGuard taskId poster) ≠ 0 →
      ∃ db', acceptBid db taskId poster bidId = (.ok (.accepted bid.bidder), db') ∧
        db'.tasks = db.tasks.map (fun t => if acceptGuard taskId poster t then
          { t with status := "assigned", worker := some bid.bidder,
                   bounty_sats := bid.amount_sats } else t) ∧
        db'.bids = db.bids.map (casc bidId taskId) ∧
        db'.activity = db.activity ++ [⟨taskId, poster, "accepted_bid",
          "Assigned to " ++ bid.bidder ++ " for " ++ toString bid.amount_sats ++ " sats"⟩] ∧
        db'.agents = db.agents) := by
  constructor
  · intro hz
    unfold acceptBid
    rw [if_neg hreq, hbid]
    dsimp only
    rw [if_pos hz, updateTasksWhere_zero db _ _ hz]
  · intro hnz
    unfold acceptBid
    rw [if_neg hreq, hbid]
    dsimp only
    rw [if_neg hnz]
    refine ⟨_, rfl, rfl, ?_, rfl, rfl⟩
    dsimp only [appendActivity]
    rw [updateTasksWhere_bids, accept_cascade_eq]

theorem C1_accept_conditional_witness :
    (acceptBid dbS3 1 "alice" 1
      = (.error ⟨409, "Task already accepted or not open, or not your task"⟩, dbS3)) ∧
    (acceptBid dbS2 1 "alice" 1).1 = .ok (.accepted "bob") := by
  constructor
  · exact (C1_accept_conditional dbS3 1 "alice" 1 ⟨1, 1, "bob", 80, none, "accepted"⟩
      (by decide) (by decide)).1 (by decide)
  · obtain ⟨db', hdb', -⟩ := (C1_accept_conditional dbS2 1 "alice" 1
      ⟨1, 1, "bob", 80, none, "pending"⟩ (by decide) (by decide)).2 (by decide)
    rw [hdb']

/-- C6: no write operation decreases any agent's reputation. -/
theorem C6_reputation_monotone (db : DB) (op : Op) (a : String) :
    (db.agents a).reputation ≤ ((stepDB db op).agents a).reputation := by
  cases op with
  | create p ti de bo tg dl pn ps =>
    show (db.agents a).reputation ≤ ((createTask db p ti de bo tg dl pn ps).2.agents a).reputation
    unfold createTask
    split
    · exact le_refl _
    split
    · exact le_refl _
    dsimp only [appendActivity, updateAgent]
    by_cases hap : a = p
    · rw [if_pos hap]
      dsimp only
      rw [ensureAgent_reputation]
    · rw [if_neg hap, ensureAgent_reputation]
  | bid tid b amt m bn bs =>
    show (db.agents a).reputation ≤ ((placeBid db tid b amt m bn bs).2.agents a).reputation
    unfold placeBid
    split
    · exact le_refl _
    split
    · exact le_refl _
    split
    · exact le_refl _
    split
    · exact le_refl _
    dsimp only [appendActivity]
    rw [ensureAgent_reputation]
  | accept tid p bidId =>
    show (db.agents a).reputation ≤ ((acceptBid db tid p bidId).2.agents a).reputation
    unfold acceptBid
    split
    · exact le_refl _
    split
    · exact le_refl _
    dsimp only
    split
    · exact le_refl _
    exact le_refl _
  | submit tid w pu d =>
    show (db.agents a).reputation ≤ ((submitWork db tid w pu d).2.agents a).reputation
    unfold submitWork
    split
    · exact le_refl _
    split
    · exact le_refl _
    split
    · exact le_refl _
    split
    · exact le_refl _
    exact le_refl _
  | verify tid p ap ptx rs =>
    show (db.agents a).reputation ≤ ((verifyWork db tid p ap ptx rs).2.agents a).reputation
    unfold verifyWork
    split
    · exact le_refl _
    split
    · exact le_refl _
    next task heq =>
      split
      · exact le_refl _
      split
      · exact le_refl _
      dsimp only
      cases ap with
      | false => exact le_refl _
      | true =>
        simp only [if_true]
        cases hwc : task.worker with
        | none =>
          dsimp only [appendActivity, updateAgent, updateTasksWhere_agents]
          by_cases hp : a = task.poster
          · rw [if_pos hp]
            dsimp only
            omega
          · rw [if_neg hp]
        | some w =>
          dsimp only [appendActivity, updateAgent, updateTasksWhere_agents]
          by_cases hp : a = task.poster
          · rw [if_pos hp]
            dsimp only
            by_cases haw : a = w
            · rw [if_pos haw]
              dsimp only
              omega
            · rw [if_neg haw]
              omega
          · rw [if_neg hp]
            by_cases haw : a = w
            · rw [if_pos haw]
              dsimp only
              omega
            · rw [if_neg haw]
  | cancel tid p =>
    show (db.agents a).reputation ≤ ((cancelTask db tid p).2.agents a).reputation
    unfold cancelTask
    split
    · exact le_refl _
    split
    · exact le_refl _
    split
    · exact le_refl _
    split
    · exact le_refl _
    dsimp only [appendActivity, updateAgent, updateTasksWhere_agents]
    by_cases hap : a = p
    · rw [if_pos hap]
    · rw [if_neg hap]

/-- C4: an approved verification by the poster of a submitted task stores status
"paid" when a payment_tx is supplied and "verified" otherwise, credits the
worker's ledger with tasks_completed + 1, total_earned_sats + bounty_sats and
reputation + 1, credits the poster's ledger with reputation + 1 only, and
appends a "verified" activity record. -/
theorem C4_verify_approve (db : DB) (tid : Nat) (poster : String)
    (ptx rs : Option String) (task : Task) (w : String)
    (hfind : db.tasks.find? (fun t => t.id == tid) = some task)
    (hposter : task.poster = poster)
    (hstatus : task.status = "submitted")
    (hw : task.worker = some w)
    (hwp : w ≠ poster)
    (hreq : poster ≠ "") :
    ∃ db', verifyWork db tid poster true ptx rs = (.ok (.verifiedResp "verified"), db') ∧
      db'.tasks = db.tasks.map (fun t => if t.id == tid then
        { t with status := (if truthy ptx then "paid" else "verified"),
                 payment_tx := orNull ptx } else t) ∧
      (db'.agents w).tasks_completed = (db.agents w).tasks_completed + 1 ∧
      (db'.agents w).total_earned_sats = (db.agents w).total_earned_sats + task.bounty_sats ∧
      (db'.agents w).reputation = (db.agents w).reputation + 1 ∧
      (db'.agents poster).reputation = (db.agents poster).reputation + 1 ∧
      (db'.agents poster).tasks_completed = (db.agents poster).tasks_completed ∧
      (db'.agents poster).total_earned_sats = (db.agents poster).total_earned_sats ∧
      db'.activity = db.activity ++ [⟨tid, poster, "verified",
        "Approved. " ++ (if truthy ptx then
          "Paid: " ++ (match ptx with | some s => s | none => "")
          else "Awaiting payment.")⟩] := by
  unfold verifyWork
  rw [if_neg hreq, hfind]
  dsimp only
  rw [if_neg (not_not_intro hposter), if_neg (not_not_intro hstatus),
    if_pos (rfl : (true : Bool) = true), if_pos (rfl : (true : Bool) = true), hw]
  refine ⟨_, rfl, rfl, ?_, ?_, ?_, ?_, ?_, ?_, ?_⟩
  all_goals dsimp only [appendActivity, updateAgent, updateTasksWhere_agents]
  · rw [if_neg (show ¬ w = task.poster from by rw [hposter]; exact hwp),
      if_pos (rfl : w = w)]
  · rw [if_neg (show ¬ w = task.poster from by rw [hposter]; exact hwp),
      if_pos (rfl : w = w)]
  · rw [if_neg (show ¬ w = task.poster from by rw [hposter]; exact hwp),
      if_pos (rfl : w = w)]
  · rw [if_pos (show poster = task.poster from hposter.symm),
      if_neg (show ¬ poster = w from fun hc => hwp hc.symm)]
  · rw [if_pos (show poster = task.poster from hposter.symm),
      if_neg (show ¬ poster = w from fun hc => hwp hc.symm)]
  · rw [if_pos (show poster = task.poster from hposter.symm),
      if_neg (show ¬ poster = w from fun hc => hwp hc.symm)]
  · rfl

theorem C4_verify_approve_witness :
    (dbS5.agents "bob").tasks_completed = (dbS4.agents "bob").tasks_completed + 1 ∧
    (dbS5.agents "bob").total_earned_sats = (dbS4.agents "bob").total_earned_sats + 80 ∧
    (dbS5.agents "bob").reputation = (dbS4.agents "bob").reputation + 1 ∧
    (dbS5.agents "alice").reputation = (dbS4.agents "alice").reputation + 1 := by
  obtain ⟨db', heq, -, hcomp, hearn, hrepw, hrepp, -, -, -⟩ :=
    C4_verify_approve dbS4 1 "alice" none none
      ⟨1, "alice", "t1", "d1", 80, "submitted", none, none, some "bob",
        some "https://x", none, none⟩
      "bob" (by decide) (by decide) (by decide) (by decide) (by decide) (by decide)
  have hdb : dbS5 = db' := congrArg Prod.snd heq
  rw [hdb]
  exact ⟨hcomp, hearn, hrepw, hrepp⟩

/-- C8 counterexample: an accept call by an address that is not the task's
poster, on an open task with an existing bid, does not fail with a
forbidden/authorization (403) error as the claim states: it fails with the 409
conflict of the conditional update (whose message does not distinguish actor
mismatch from state mismatch), although no state changes. -/
theorem C8_counterexample :
    (acceptBid dbS2 1 "carol" 1).1
      = .error ⟨409, "Task already accepted or not open, or not your task"⟩ ∧
    (∀ msg, (acceptBid dbS2 1 "carol" 1).1 ≠ .error ⟨403, msg⟩) ∧
    dbS2.tasks.map Task.poster = ["alice"] ∧
    (acceptBid dbS2 1 "carol" 1).2.tasks = dbS2.tasks ∧
    (acceptBid dbS2 1 "carol" 1).2.bids = dbS2.bids ∧
    (acceptBid dbS2 1 "carol" 1).2.activity = dbS2.activity := by
  refine ⟨rfl, ?_, by decide, by decide, by decide, by decide⟩
  intro msg h
  have : (409 : Nat) = 403 := by
    have h1 : (acceptBid dbS2 1 "carol" 1).1
        = .error ⟨409, "Task already accepted or not open, or not your task"⟩ := rfl
    rw [h1] at h
    injection h with h2
    exact congrArg ApiError.code h2
  simp at this

/-- C8 (amended): an actor mismatch on submit, verify or cancel fails with a
403 forbidden error and changes nothing; an actor mismatch on accept surfaces
instead as the conditional update matching zero rows, so the call fails with
the 409 conflict response (not a 403) and changes nothing. -/
theorem C8_actor_mismatch (db : DB) (tid : Nat) (task : Task)
    (hnd : (db.tasks.map Task.id).Nodup)
    (hfind : db.tasks.find? (fun t => t.id == tid) = some task) :
    (∀ w pu d, ¬(w = "" ∨ pu = "") → task.worker ≠ some w →
      submitWork db tid w pu d = (.error ⟨403, "Only the assigned worker can submit"⟩, db)) ∧
    (∀ p ap ptx rs, p ≠ "" → task.poster ≠ p →
      verifyWork db tid p ap ptx rs = (.error ⟨403, "Only the poster can verify"⟩, db)) ∧
    (∀ p, p ≠ "" → task.poster ≠ p →
      cancelTask db tid p = (.error ⟨403, "Only the poster can cancel"⟩, db)) ∧
    (∀ p bidId, ¬(p = "" ∨ bidId = 0) → task.poster ≠ p →
      acceptBid db tid p bidId
        = (.error ⟨404, "Bid not found"⟩, db) ∨
      acceptBid db tid p bidId
        = (.error ⟨409, "Task already accepted or not open, or not your task"⟩, db)) := by
  have htmem := List.mem_of_find?_eq_some hfind
  have htid : task.id = tid := by simpa using List.find?_some hfind
  refine ⟨?_, ?_, ?_, ?_⟩
  · intro w pu d hr hw
    unfold submitWork
    rw [if_neg hr, hfind]
    dsimp only
    rw [if_pos hw]
  · intro p ap ptx rs hr hp
    unfold verifyWork
    rw [if_neg hr, hfind]
    dsimp only
    rw [if_pos hp]
  · intro p hr hp
    unfold cancelTask
    rw [if_neg hr, hfind]
    dsimp only
    rw [if_pos hp]
  · intro p bidId hr hp
    unfold acceptBid
    rw [if_neg hr]
    cases hb : db.bids.find? (fun b => b.id == bidId && b.task_id == tid) with
    | none => exact Or.inl rfl
    | some bid2 =>
      refine Or.inr ?_
      dsimp only
      have hz : db.tasks.countP (acceptGuard tid p) = 0 := by
        rw [List.countP_eq_zero]
        intro t' ht'
        by_cases hid : t'.id = tid
        · have : t' = task := List.inj_on_of_nodup_map hnd ht' htmem (by rw [hid, htid])
          subst this
          simp [acceptGuard, hp]
        · simp [acceptGuard, hid]
      rw [if_pos hz, updateTasksWhere_zero db _ _ hz]

theorem C8_actor_mismatch_witness :
    submitWork dbS3 1 "carol" "p" none
      = (.error ⟨403, "Only the assigned worker can submit"⟩, dbS3) ∧
    verifyWork dbS4 1 "carol" true none none
      = (.error ⟨403, "Only the poster can verify"⟩, dbS4) ∧
    cancelTask dbS1 1 "carol" = (.error ⟨403, "Only the poster can cancel"⟩, dbS1) ∧
    (acceptBid dbS2 1 "carol" 1
        = (.error ⟨404, "Bid not found"⟩, dbS2) ∨
      acceptBid dbS2 1 "carol" 1
        = (.error ⟨409, "Task already accepted or not open, or not your task"⟩, dbS2)) := by
  refine ⟨?_, ?_, ?_, ?_⟩
  · exact (C8_actor_mismatch dbS3 1
      ⟨1, "alice", "t1", "d1", 80, "assigned", none, none, some "bob", none, none, none⟩
      (by decide) (by decide)).1 "carol" "p" none (by decide) (by decide)
  · exact (C8_actor_mismatch dbS4 1
      ⟨1, "alice", "t1", "d1", 80, "submitted", none, none, some "bob",
        some "https://x", none, none⟩
      (by decide) (by decide)).2.1 "carol" true none none (by decide) (by decide)
  · exact (C8_actor_mismatch dbS1 1
      ⟨1, "alice", "t1", "d1", 100, "open", none, none, none, none, none, none⟩
      (by decide) (by decide)).2.2.1 "carol" (by decide) (by decide)
  · exact (C8_actor_mismatch dbS2 1
      ⟨1, "alice", "t1", "d1", 100, "open", none, none, none, none, none, none⟩
      (by decide) (by decide)).2.2.2 "carol" 1 (by decide) (by decide)

/-- C9 counterexample: the claim says the invalid-state error "reports the
task's current state".  Cancelling the assigned task of dbS3 as its poster
yields the fixed message "Can only cancel open tasks", and the current state
"assigned" does not occur in that message, so the current state is not
reported. -/
theorem C9_counterexample :
    dbS3.tasks.map Task.status = ["assigned"] ∧
    cancelTask dbS3 1 "alice" = (.error ⟨400, "Can only cancel open tasks"⟩, dbS3) ∧
    ¬ List.IsInfix "assigned".data "Can only cancel open tasks".data := by
  refine ⟨by decide, ?_, by decide⟩
  rfl

/-- C9 (amended): a transition requested on an existing task whose status does
not satisfy the source-state precondition (bid/cancel need "open", submit needs
"assigned", verify needs "submitted") fails with a 400 invalid-state error
whose message is a fixed string naming the required state (not the current
one), and no state changes. -/
theorem C9_invalid_state (db : DB) (tid : Nat) (task : Task)
    (hfind : db.tasks.find? (fun t => t.id == tid) = some task) :
    (∀ bidder amt m bn bs, ¬(bidder = "" ∨ amt = 0) → task.status ≠ "open" →
      placeBid db tid bidder amt m bn bs
        = (.error ⟨400, "Task is not open for bids"⟩, db)) ∧
    (∀ w pu d, ¬(w = "" ∨ pu = "") → task.worker = some w → task.status ≠ "assigned" →
      submitWork db tid w pu d = (.error ⟨400, "Task is not in assigned state"⟩, db)) ∧
    (∀ p ap ptx rs, p ≠ "" → task.poster = p → task.status ≠ "submitted" →
      verifyWork db tid p ap ptx rs = (.error ⟨400, "Task work not submitted yet"⟩, db)) ∧
    (∀ p, p ≠ "" → task.poster = p → task.status ≠ "open" →
      cancelTask db tid p = (.error ⟨400, "Can only cancel open tasks"⟩, db)) := by
  refine ⟨?_, ?_, ?_, ?_⟩
  · intro bidder amt m bn bs hr hst
    unfold placeBid
    rw [if_neg hr, hfind]
    dsimp only
    rw [if_pos hst]
  · intro w pu d hr hw hst
    unfold submitWork
    rw [if_neg hr, hfind]
    dsimp only
    rw [if_neg (not_not_intro hw), if_pos hst]
  · intro p ap ptx rs hr hp hst
    unfold verifyWork
    rw [if_neg hr, hfind]
    dsimp only
    rw [if_neg (not_not_intro hp), if_pos hst]
  · intro p hr hp hst
    unfold cancelTask
    rw [if_neg hr, hfind]
    dsimp only
    rw [if_neg (not_not_intro hp), if_pos hst]

theorem C9_invalid_state_witness :
    placeBid dbS3 1 "carol" 50 none none none
      = (.error ⟨400, "Task is not open for bids"⟩, dbS3) ∧
    submitWork dbS4 1 "bob" "p2" none
      = (.error ⟨400, "Task is not in assigned state"⟩, dbS4) ∧
    verifyWork dbS3 1 "alice" true none none
      = (.error ⟨400, "Task work not submitted yet"⟩, dbS3) ∧
    cancelTask dbS3 1 "alice" = (.error ⟨400, "Can only cancel open tasks"⟩, dbS3) := by
  refine ⟨?_, ?_, ?_, ?_⟩
  · exact (C9_invalid_state dbS3 1
      ⟨1, "alice", "t1", "d1", 80, "assigned", none, none, some "bob", none, none, none⟩
      (by decide)).1 "carol" 50 none none none (by decide) (by decide)
  · exact (C9_invalid_state dbS4 1
      ⟨1, "alice", "t1", "d1", 80, "submitted", none, none, some "bob",
        some "https://x", none, none⟩
      (by decide)).2.1 "bob" "p2" none (by decide) (by decide) (by decide)
  · exact (C9_invalid_state dbS3 1
      ⟨1, "alice", "t1", "d1", 80, "assigned", none, none, some "bob", none, none, none⟩
      (by decide)).2.2.1 "alice" true none none (by decide) (by decide) (by decide)
  · exact (C9_invalid_state dbS3 1
      ⟨1, "alice", "t1", "d1", 80, "assigned", none, none, some "bob", none, none, none⟩
      (by decide)).2.2.2 "alice" (by decide) (by decide) (by decide)

/-- C10: a successful approved verification always answers status "verified" in
the response body, computed from the approved flag alone; when a payment_tx is
supplied the stored task status is "paid" while the response still reports
"verified". -/
theorem C10_verify_response (db : DB) (tid : Nat) (poster : String)
    (ptx rs : Option String) (task : Task)
    (hfind : db.tasks.find? (fun t => t.id == tid) = some task)
    (hposter : task.poster = poster)
    (hstatus : task.status = "submitted")
    (hreq : poster ≠ "") :
    (verifyWork db tid poster true ptx rs).1 = .ok (.verifiedResp "verified") ∧
    (truthy ptx = true →
      ∀ t ∈ (verifyWork db tid poster true ptx rs).2.tasks, t.id = tid → t.status = "paid") := by
  have htasks : (verifyWork db tid poster true ptx rs).2.tasks
      = db.tasks.map (fun t => if t.id == tid then
          { t with status := (if truthy ptx then "paid" else "verified"),
                   payment_tx := orNull ptx } else t) := by
    unfold verifyWork
    rw [if_neg hreq, hfind]
    dsimp only
    rw [if_neg (not_not_intro hposter), if_neg (not_not_intro hstatus),
      if_pos (rfl : (true : Bool) = true)]
    cases task.worker <;> rfl
  constructor
  · unfold verifyWork
    rw [if_neg hreq, hfind]
    dsimp only
    rw [if_neg (not_not_intro hposter), if_neg (not_not_intro hstatus)]
    rfl
  · intro hp t ht htid
    rw [htasks] at ht
    rcases mem_map_ite ht with ⟨t1, ht1, rfl⟩
    by_cases hg : t1.id == tid
    · simp [hg, hp]
    · rw [if_neg (by simp [hg])] at htid ⊢
      exact absurd htid (by simpa using hg)

/-- C7: cancellation succeeds exactly for the poster of an open task, setting
status "cancelled", decreasing the poster's total_spent_sats by the bounty and
appending a "cancelled" activity record; a cancel on a non-open task is a 400
state conflict with no change, a cancel by a non-poster is a 403 with no
change, and "cancelled" is terminal: every operation targeting a cancelled task
fails and leaves the database unchanged. -/
theorem C7_cancel (db : DB) (tid : Nat) (poster : String) (task : Task)
    (hnd : (db.tasks.map Task.id).Nodup)
    (hfind : db.tasks.find? (fun t => t.id == tid) = some task)
    (hreq : poster ≠ "") :
    (task.poster = poster → task.status = "open" →
      ∃ db', cancelTask db tid poster = (.ok .cancelledOk, db') ∧
        db'.tasks = db.tasks.map (fun t => if t.id == tid then
          { t with status := "cancelled" } else t) ∧
        (db'.agents poster).total_spent_sats
          = (db.agents poster).total_spent_sats - task.bounty_sats ∧
        db'.activity = db.activity ++ [⟨tid, poster, "cancelled", "Task cancelled"⟩]) ∧
    (task.poster = poster → task.status ≠ "open" →
      cancelTask db tid poster = (.error ⟨400, "Can only cancel open tasks"⟩, db)) ∧
    (task.poster ≠ poster →
      cancelTask db tid poster = (.error ⟨403, "Only the poster can cancel"⟩, db)) ∧
    (task.status = "cancelled" →
      ∀ op : Op, op.target = some tid → ∃ e, exec db op = (.error e, db)) := by
  have htmem := List.mem_of_find?_eq_some hfind
  have htid : task.id = tid := by simpa using List.find?_some hfind
  refine ⟨?_, ?_, ?_, ?_⟩
  · intro hposter hopen
    unfold cancelTask
    rw [if_neg hreq, hfind]
    dsimp only
    rw [if_neg (not_not_intro hposter), if_neg (not_not_intro hopen)]
    refine ⟨_, rfl, rfl, ?_, rfl⟩
    dsimp only [appendActivity, updateAgent, updateTasksWhere_agents]
    rw [if_pos (rfl : poster = poster)]
  · intro hposter hnopen
    unfold cancelTask
    rw [if_neg hreq, hfind]
    dsimp only
    rw [if_neg (not_not_intro hposter), if_pos hnopen]
  · intro hposter
    unfold cancelTask
    rw [if_neg hreq, hfind]
    dsimp only
    rw [if_pos hposter]
  · intro hst op htgt
    cases op with
    | create p ti de bo tg dl pn ps => simp [Op.target] at htgt
    | bid tid2 b amt m bn bs =>
      have : tid2 = tid := by simpa [Op.target] using htgt
      subst this
      show ∃ e, placeBid db tid2 b amt m bn bs = (.error e, db)
      unfold placeBid
      split
      · exact ⟨_, rfl⟩
      rw [hfind]
      dsimp only
      rw [if_pos (show task.status ≠ "open" from by rw [hst]; simp)]
      exact ⟨_, rfl⟩
    | accept tid2 p2 bidId =>
      have : tid2 = tid := by simpa [Op.target] using htgt
      subst this
      show ∃ e, acceptBid db tid2 p2 bidId = (.error e, db)
      unfold acceptBid
      split
      · exact ⟨_, rfl⟩
      split
      · exact ⟨_, rfl⟩
      dsimp only
      have hz : db.tasks.countP (acceptGuard tid2 p2) = 0 := by
        rw [List.countP_eq_zero]
        intro t' ht'
        by_cases hid : t'.id = tid2
        · have : t' = task := List.inj_on_of_nodup_map hnd ht' htmem (by rw [hid, htid])
          subst this
          simp [acceptGuard, hst]
        · simp [acceptGuard, hid]
      rw [if_pos hz, updateTasksWhere_zero db _ _ hz]
      exact ⟨_, rfl⟩
    | submit tid2 w pu d =>
      have : tid2 = tid := by simpa [Op.target] using htgt
      subst this
      show ∃ e, submitWork db tid2 w pu d = (.error e, db)
      unfold submitWork
      split
      · exact ⟨_, rfl⟩
      rw [hfind]
      dsimp only
      split
      · exact ⟨_, rfl⟩
      rw [if_pos (show task.status ≠ "assigned" from by rw [hst]; simp)]
      exact ⟨_, rfl⟩
    | verify tid2 p2 ap ptx rs =>
      have : tid2 = tid := by simpa [Op.target] using htgt
      subst this
      show ∃ e, verifyWork db tid2 p2 ap ptx rs = (.error e, db)
      unfold verifyWork
      split
      · exact ⟨_, rfl⟩
      rw [hfind]
      dsimp only
      split
      · exact ⟨_, rfl⟩
      rw [if_pos (show task.status ≠ "submitted" from by rw [hst]; simp)]
      exact ⟨_, rfl⟩
    | cancel tid2 p2 =>
      have : tid2 = tid := by simpa [Op.target] using htgt
      subst this
      show ∃ e, cancelTask db tid2 p2 = (.error e, db)
      unfold cancelTask
      split
      · exact ⟨_, rfl⟩
      rw [hfind]
      dsimp only
      split
      · exact ⟨_, rfl⟩
      rw [if_pos (show task.status ≠ "open" from by rw [hst]; simp)]
      exact ⟨_, rfl⟩

theorem C7_cancel_witness :
    (cancelTask dbS1 1 "alice").1 = .ok .cancelledOk ∧
    cancelTask dbS3 1 "alice" = (.error ⟨400, "Can only cancel open tasks"⟩, dbS3) ∧
    (∃ e, exec dbC (.submit 1 "bob" "p" none) = (.error e, dbC)) := by
  refine ⟨?_, ?_, ?_⟩
  · obtain ⟨db', heq, -⟩ := (C7_cancel dbS1 1 "alice"
      ⟨1, "alice", "t1", "d1", 100, "open", none, none, none, none, none, none⟩
      (by decide) (by decide) (by decide)).1 rfl rfl
    rw [heq]
  · exact (C7_cancel dbS3 1 "alice"
      ⟨1, "alice", "t1", "d1", 80, "assigned", none, none, some "bob", none, none, none⟩
      (by decide) (by decide) (by decide)).2.1 rfl (by decide)
  · exact (C7_cancel dbC 1 "alice"
      ⟨1, "alice", "t1", "d1", 100, "cancelled", none, none, none, none, none, none⟩
      (by decide) (by decide) (by decide)).2.2.2 rfl (.submit 1 "bob" "p" none) rfl

theorem C10_verify_response_witness :
    (verifyWork dbS4 1 "alice" true (some "tx1") none).1 = .ok (.verifiedResp "verified") ∧
    (verifyWork dbS4 1 "alice" true (some "tx1") none).2.tasks.map
      (fun t => t.status) = ["paid"] := by
  have h := C10_verify_response dbS4 1 "alice" (some "tx1") none
    ⟨1, "alice", "t1", "d1", 80, "submitted", none, none, some "bob",
      some "https://x", none, none⟩
    (by decide) (by decide) (by decide) (by decide)
  exact ⟨h.1, by decide⟩
end X402
